import Mathlib

/-!
Shallow embedding of `wayr.py` ("why are you running?"), a read-only process
provenance tool: the `ProcessInfo` data model, the ancestry resolver
(`build_ancestry`), the source classifier (`detect_source`), the port
resolvers (`find_process_by_port`, `find_process_by_port_linux_proc`,
`detect_listening_ports_linux_proc`) and the two platform snapshot providers
(`get_process_info_linux` / `get_process_info_macos`), together with theorems
settling the specification's claims against the embedded code.

External effects (file reads under /proc, subprocess invocations) are passed
in as explicit environment records; machine strings are modelled as
`List Char` / `String`, Python ints as `Int`/`Nat`, `datetime` values as
rational seconds.
-/

/-! ## Python string helpers (faithful models of the str operations used) -/

/-- Digits of a decimal numeral folded into a `Nat`
(the numeric value `int(...)` computes on an all-digit string). -/
def digitsToNat (ds : List Char) : Nat :=
  ds.foldl (fun n c => n * 10 + (c.toNat - '0'.toNat)) 0

/-- `chPref pat s` : does `s` start with `pat`?  (Python `str.startswith`.) -/
def chPref : List Char → List Char → Bool
  | [], _ => true
  | _ :: _, [] => false
  | p :: ps, c :: cs => p = c && chPref ps cs

/-- `subOf pat s` : does `pat` occur as a contiguous substring of `s`?
(Python `pat in s`.) -/
def subOf : List Char → List Char → Bool
  | pat, [] => pat.isEmpty
  | pat, s@(_ :: tl) => chPref pat s || subOf pat tl

/-- Python `pat in s` on `String`s. -/
def strContains (s pat : String) : Bool := subOf pat.data s.data

/-- Python `s.split(sep)` for a one-character separator, no maxsplit:
always returns at least one (possibly empty) piece. -/
def splitOnChar (sep : Char) : List Char → List (List Char)
  | [] => [[]]
  | c :: cs =>
    if c = sep then [] :: splitOnChar sep cs
    else
      match splitOnChar sep cs with
      | [] => [[c]]
      | t :: ts => (c :: t) :: ts

/-- Python `s.split(sep, 1)`: the part before the first separator, and
(when the separator occurs) the untouched remainder. -/
def splitOnce (sep : Char) : List Char → List Char × Option (List Char)
  | [] => ([], none)
  | c :: cs =>
    if c = sep then ([], some cs)
    else
      let r := splitOnce sep cs
      (c :: r.1, r.2)

/-- Token accumulator for Python `s.split()`: `acc` holds the reversed
characters of the token currently being read. -/
def wsplitGo : List Char → List Char → List (List Char)
  | acc, [] => if acc = [] then [] else [acc.reverse]
  | acc, c :: cs =>
    if c.isWhitespace then
      if acc = [] then wsplitGo [] cs else acc.reverse :: wsplitGo [] cs
    else wsplitGo (c :: acc) cs

/-- Python `s.split()` (no argument): split on runs of whitespace,
discarding empty pieces.  Lean's `Char.isWhitespace` covers the whitespace
characters appearing in the ASCII data this tool parses. -/
def wsplitL (l : List Char) : List (List Char) := wsplitGo [] l

/-- After the split budget is exhausted, Python returns the remainder with
its leading whitespace consumed as one final piece (or nothing at all). -/
def restTok (l : List Char) : List (List Char) :=
  let r := l.dropWhile Char.isWhitespace
  if r = [] then [] else [r]

/-- `wsplitMax` worker; `n ≥ 1` remaining splits are available whenever a
token is being accumulated. -/
def wsplitMaxGo : Nat → List Char → List Char → List (List Char)
  | _, acc, [] => if acc = [] then [] else [acc.reverse]
  | n, acc, c :: cs =>
    if c.isWhitespace then
      if acc = [] then wsplitMaxGo n [] cs
      else
        acc.reverse ::
          (match n with
           | 0 => restTok cs
           | 1 => restTok cs
           | m + 2 => wsplitMaxGo (m + 1) [] cs)
    else wsplitMaxGo n (c :: acc) cs

/-- Python `s.split(None, maxsplit)`: like `wsplitL` but after `maxsplit`
splits the rest (with leading whitespace consumed) is one final piece. -/
def wsplitMax (maxsplit : Nat) (l : List Char) : List (List Char) :=
  if maxsplit = 0 then restTok l else wsplitMaxGo maxsplit [] l

/-- Python `s.strip()` on char lists. -/
def pyStripL (l : List Char) : List Char :=
  ((l.dropWhile Char.isWhitespace).reverse.dropWhile Char.isWhitespace).reverse

/-- Python `s.strip()` on `String`s. -/
def pyStripS (s : String) : String := String.mk (pyStripL s.data)

/-- Python `s.splitlines()` restricted to `\n` separators (the only line
separator in the data this tool reads): like split on `\n` but a trailing
final empty piece is dropped. -/
def pySplitlines (s : String) : List String :=
  let ls := splitOnChar '\n' s.data
  let ls := if ls.getLast? = some [] then ls.dropLast else ls
  ls.map String.mk

/-- Python `s.upper()` on char lists (ASCII data). -/
def pyUpperL (l : List Char) : List Char := l.map Char.toUpper

/-- Python `int(s)`: optional surrounding whitespace, optional sign, a
nonempty digit run; anything else raises (modelled as `none`). -/
def pyInt (cs : List Char) : Option Int :=
  let t := pyStripL cs
  match t with
  | '-' :: ds =>
    if ds ≠ [] ∧ ds.all Char.isDigit then some (-(digitsToNat ds : Int)) else none
  | '+' :: ds =>
    if ds ≠ [] ∧ ds.all Char.isDigit then some (digitsToNat ds : Int) else none
  | ds =>
    if ds ≠ [] ∧ ds.all Char.isDigit then some (digitsToNat ds : Int) else none

/-- Hex digit value, both cases accepted (as `int(s, 16)` does). -/
def hexVal (c : Char) : Option Nat :=
  if c.isDigit then some (c.toNat - '0'.toNat)
  else if 'a' ≤ c ∧ c ≤ 'f' then some (c.toNat - 'a'.toNat + 10)
  else if 'A' ≤ c ∧ c ≤ 'F' then some (c.toNat - 'A'.toNat + 10)
  else none

/-- Python `int(s, 16)` on the bare hex-digit strings found in the kernel
socket tables; a non-hex character raises (modelled as `none`). -/
def pyIntHex (cs : List Char) : Option Nat :=
  if cs = [] then none
  else
    cs.foldl (fun acc c =>
      match acc, hexVal c with
      | some n, some v => some (n * 16 + v)
      | _, _ => none) (some 0)

/-- Python `float(s)` restricted to the plain decimal forms occurring in
`/proc/uptime` (optional sign, digits with at most one interior dot);
anything else raises (modelled as `none`). -/
def pyFloat (cs : List Char) : Option ℚ :=
  let t := pyStripL cs
  let (sign, body) : ℚ × List Char :=
    match t with
    | '-' :: r => (-1, r)
    | '+' :: r => (1, r)
    | r => (1, r)
  match splitOnChar '.' body with
  | [a] =>
    if a ≠ [] ∧ a.all Char.isDigit then some (sign * (digitsToNat a : ℚ)) else none
  | [a, b] =>
    if (a ≠ [] ∨ b ≠ []) ∧ a.all Char.isDigit ∧ b.all Char.isDigit then
      some (sign * ((digitsToNat a : ℚ) + (digitsToNat b : ℚ) / ((10 : ℚ) ^ b.length)))
    else none
  | _ => none

/-- Uppercase hex digit for a value below 16 (as in `f"{port:04X}"`). -/
def hexDigitU (n : Nat) : Char :=
  if n < 10 then Char.ofNat ('0'.toNat + n) else Char.ofNat ('A'.toNat + (n - 10))

/-- Hex digits of `n` (uppercase, no leading zeros; `[]` for 0), fuel-bounded
by the bit size which 32 always exceeds for the port numbers involved. -/
def natToHexAux : Nat → Nat → List Char → List Char
  | 0, _, acc => acc
  | fuel + 1, n, acc =>
    if n = 0 then acc else natToHexAux fuel (n / 16) (hexDigitU (n % 16) :: acc)

/-- Python `f"{port:04X}"`: uppercase hex, zero-padded to width 4. -/
def toHex4 (n : Nat) : List Char :=
  let ds := if n = 0 then ['0'] else natToHexAux 32 n []
  List.replicate (4 - ds.length) '0' ++ ds

/-- Python `os.path.basename`: everything after the last `/`. -/
def basenameL (l : List Char) : List Char :=
  (l.reverse.takeWhile (fun c => c ≠ '/')).reverse

/-! ## Data model -/

/-- One snapshot of a process: the `ProcessInfo` dataclass of wayr.py.
`start_time` is a point in time in seconds (`datetime` arithmetic is exact
rational arithmetic here), `env_vars` the insertion-ordered dict as an
association list.  The dataclass's `ancestry` and `children` fields are
threaded separately in this embedding (the classifier receives the resolved
ancestry as an argument, matching the spec contract "classify(process with
ancestry already resolved)"); every snapshot the provider creates has both
empty, so record equality (`dataclass ==`) over the fields below coincides
with the Python `==` on all records the embedded functions compare. -/
structure ProcessInfo where
  pid : Int
  name : String
  ppid : Int
  user : String
  cmd : String
  start_time : ℚ
  cwd : Option String := none
  restart_count : Int := 0
  rss_kb : Int := 0
  source : Option String := none
  source_detail : Option String := none
  git_repo : Option String := none
  git_branch : Option String := none
  container_name : Option String := none
  container_image : Option String := none
  listening_addresses : List String := []
  env_vars : List (String × String) := []
deriving DecidableEq, Repr

/-- Fixture builder: a fresh snapshot with the given identity fields and
neutral defaults (used only by the concrete test fixtures below). -/
def mkPI (pid ppid : Int) (name cmd : String) : ProcessInfo :=
  { pid := pid, name := name, ppid := ppid, user := "root", cmd := cmd,
    start_time := 0 }

/-! ## Ancestry resolver (`build_ancestry`, wayr.py lines 456-472) -/

/-- Loop body of `build_ancestry`.  `snap` stands for `get_process_info`
(the platform snapshot provider applied to the ambient OS state).  The
Python `while` loop runs at most 21 inserting iterations (each iteration
prepends one element and breaks once the length exceeds 20), so the fuel of
30 used below is never the reason the recursion stops; it only makes the
recursion structural. -/
def buildAncestryAux (snap : Int → Option ProcessInfo) :
    Nat → Int → List ProcessInfo → List ProcessInfo
  | 0, _, anc => anc
  | fuel + 1, current, anc =>
    if current > 0 then
      match snap current with
      | none => anc
      | some parent =>
        let anc' := parent :: anc
        if parent.ppid = 1 ∨ anc'.length > 20 then anc'
        else buildAncestryAux snap fuel parent.ppid anc'
    else anc

/-- `build_ancestry(proc)`: walk parent links from `proc.ppid` upward,
prepending each resolved parent, so the final order is root-first. -/
def buildAncestry (snap : Int → Option ProcessInfo) (proc : ProcessInfo) :
    List ProcessInfo :=
  buildAncestryAux snap 30 proc.ppid []

/-! ### Fixtures for the ancestry claims -/

/-- Pathological snapshot provider: pid 2 is its own parent. -/
def snapLoop : Int → Option ProcessInfo :=
  fun q => if q = 2 then some (mkPI 2 2 "loopy" "loopy") else none

/-- Target process whose parent is the self-parenting pid 2. -/
def loopTarget : ProcessInfo := mkPI 5 2 "python" "python app.py"

/-- Snapshot provider where the chain target → 4 → 1 reaches init in two
hops and pid 1 itself is resolvable. -/
def snapInit : Int → Option ProcessInfo :=
  fun q =>
    if q = 4 then some (mkPI 4 1 "bash" "-bash")
    else if q = 1 then some (mkPI 1 0 "systemd" "/sbin/init")
    else none

/-- Target process with parent pid 4. -/
def initTarget : ProcessInfo := mkPI 7 4 "python" "python app.py"

/-- Key step bound for the length invariant of the ancestry loop. -/
theorem buildAncestryAux_length_le (snap : Int → Option ProcessInfo) :
    ∀ fuel current anc, anc.length ≤ 20 →
      (buildAncestryAux snap fuel current anc).length ≤ 21 := by
  intro fuel
  induction fuel with
  | zero => intro current anc h; simpa [buildAncestryAux] using h.trans (by omega)
  | succ n ih =>
    intro current anc h
    simp only [buildAncestryAux]
    split
    · cases hs : snap current with
      | none => simpa using h.trans (by omega)
      | some parent =>
        simp only []
        split
        · simpa using h
        · rename_i hcond
          exact ih parent.ppid (parent :: anc) (by simp at hcond ⊢; omega)
    · exact h.trans (by omega)

/-- C2 counterexample: on the self-parenting provider the returned chain has
length 21, violating the claimed hard cap of 20. -/
theorem c2_length_counterexample :
    (buildAncestry snapLoop loopTarget).length = 21 ∧
      ¬ (buildAncestry snapLoop loopTarget).length ≤ 20 := by decide

/-- C2 (amended): for every snapshot provider and every target process,
`build_ancestry` returns a sequence of length at most 21 (the loop breaks
only after the insertion that makes the length exceed 20). -/
theorem c2_ancestry_length_le_21 (snap : Int → Option ProcessInfo)
    (proc : ProcessInfo) : (buildAncestry snap proc).length ≤ 21 :=
  buildAncestryAux_length_le snap 30 proc.ppid [] (by simp)

/-- C3 (code bug evaluation): with pid 1 reachable in two hops and
resolvable, the returned ancestry is just `[pid 4]`; the walk breaks on
seeing `ppid == 1` without ever fetching pid 1, so init is not included,
contrary to the function's own docstring ("Build the ancestry chain from
init to this process") and the spec. -/
theorem c3_init_omitted_eval :
    buildAncestry snapInit initTarget = [mkPI 4 1 "bash" "-bash"] ∧
      (∀ x ∈ buildAncestry snapInit initTarget, x.pid ≠ 1) ∧
      snapInit 1 ≠ none := by decide

/-- Invariant proof for the link-consistency of the ancestry chain. -/
theorem buildAncestryAux_linked (snap : Int → Option ProcessInfo)
    (hs : ∀ q pi, snap q = some pi → pi.pid = q) (tp : Int) :
    ∀ fuel current anc,
      List.Chain' (fun a b => a.pid = b.ppid) anc →
      (∀ x, anc.getLast? = some x → x.pid = tp) →
      (anc = [] → current = tp) →
      (∀ x, anc.head? = some x → current = x.ppid) →
      List.Chain' (fun a b => a.pid = b.ppid)
          (buildAncestryAux snap fuel current anc) ∧
        (∀ x, (buildAncestryAux snap fuel current anc).getLast? = some x →
          x.pid = tp) := by
  intro fuel
  induction fuel with
  | zero => intro current anc h1 h2 _ _; exact ⟨h1, h2⟩
  | succ n ih =>
    intro current anc h1 h2 h3 h4
    simp only [buildAncestryAux]
    split
    · cases hsnap : snap current with
      | none => exact ⟨h1, h2⟩
      | some parent =>
        have hpid : parent.pid = current := hs current parent hsnap
        have hchain' : List.Chain' (fun a b => a.pid = b.ppid) (parent :: anc) := by
          cases anc with
          | nil => simp
          | cons hhd ttl =>
            refine List.chain'_cons.mpr ⟨?_, h1⟩
            rw [hpid]
            exact h4 hhd rfl
        have hlast' : ∀ x, (parent :: anc).getLast? = some x → x.pid = tp := by
          intro x hx
          cases anc with
          | nil =>
            simp only [List.getLast?_singleton, Option.some.injEq] at hx
            subst hx
            rw [hpid]
            exact (h3 rfl).symm ▸ rfl
          | cons hhd ttl =>
            rw [List.getLast?_cons_cons] at hx
            exact h2 x hx
        simp only []
        split
        · exact ⟨hchain', hlast'⟩
        · exact ih parent.ppid (parent :: anc) hchain' hlast'
            (by simp) (by intro x hx; simp at hx; rw [hx])
    · exact ⟨h1, h2⟩

/-- C10: assuming the snapshot provider returns, for each queried pid, a
record whose `pid` field equals that pid, every chain `build_ancestry`
produces is parent-linked: adjacent elements satisfy
`earlier.pid = later.ppid`, and the last (target-nearest) element's pid is
the target's ppid. -/
theorem c10_ancestry_linked (snap : Int → Option ProcessInfo)
    (proc : ProcessInfo) (hs : ∀ q pi, snap q = some pi → pi.pid = q) :
    List.Chain' (fun a b => a.pid = b.ppid) (buildAncestry snap proc) ∧
      (∀ x, (buildAncestry snap proc).getLast? = some x →
        x.pid = proc.ppid) :=
  buildAncestryAux_linked snap hs proc.ppid 30 proc.ppid []
    (by simp) (by simp) (fun _ => rfl) (by simp)

/-- C10 witness: the link invariant instantiated on a concrete two-level
provider. -/
theorem c10_witness :
    List.Chain' (fun a b => a.pid = b.ppid) (buildAncestry snapInit initTarget) ∧
      (∀ x, (buildAncestry snapInit initTarget).getLast? = some x →
        x.pid = initTarget.ppid) :=
  c10_ancestry_linked snapInit initTarget (by
    intro q pi h
    simp only [snapInit] at h
    split at h
    · rename_i hq; cases h; rw [hq]; rfl
    · split at h
      · rename_i hq; cases h; rw [hq]; rfl
      · cases h)

/-! ## /proc stat parsing (`get_process_info_linux`, wayr.py lines 201-210) -/

/-- Continuation test of the stat regex at a candidate split point: after
the closing parenthesis, `\) (\S) (\d+)` requires a space, one
non-whitespace state character, a space, and at least one digit. -/
def splitTail : List Char → Option (Char × List Char)
  | ' ' :: c :: ' ' :: d :: ds =>
    if ¬ c.isWhitespace ∧ d.isDigit then some (c, d :: ds) else none
  | _ => none

/-- Backtracking scan of the non-greedy
`re.match(r'^(\d+) \((.+?)\) (\S) (\d+)', stat)` after the opening
parenthesis: the lazy `(.+?)` takes the shortest nonempty prefix whose
continuation matches `\) (\S) (\d+)`, and extends by one character (never
across a newline, which `.` cannot match) whenever the continuation test
fails.  Returns the captured comm (reversed accumulator), the state
character and the rest starting at the ppid digits. -/
def scanComm : List Char → List Char → Option (List Char × Char × List Char)
  | _, [] => none
  | acc, ch :: rest =>
    if ch = ')' then
      match splitTail rest with
      | some (c, ds) =>
        if acc = [] then scanComm [')'] rest else some (acc.reverse, c, ds)
      | none => scanComm (')' :: acc) rest
    else if ch = '\n' then none
    else scanComm (ch :: acc) rest

/-- The name/state/ppid extraction of `get_process_info_linux` (line 205):
greedy leading digit run for the pid, one space, `(`, then the lazy comm
capture, then the state character and the greedy ppid digit run. -/
def parseStatL (cs : List Char) : Option (Nat × String × Char × Nat) :=
  let pd := cs.takeWhile Char.isDigit
  if pd = [] then none
  else
    match cs.drop pd.length with
    | ' ' :: '(' :: rest =>
      match scanComm [] rest with
      | some (comm, st, ds) =>
        some (digitsToNat pd, String.mk comm, st,
          digitsToNat (ds.takeWhile Char.isDigit))
      | none => none
    | _ => none

/-- String-level entry point of the stat field extraction. -/
def parseStatLinux (s : String) : Option (Nat × String × Char × Nat) :=
  parseStatL s.data

/-- Specification-side parser, following the spec's words ("a name may
contain parentheses/spaces and must be extracted via the
outermost-parenthesis convention, not naive splitting"), kept for
comparison with `parseStatL`: the comm is everything between the first `(`
and the *last* `)` of the record, and the single-character state field and
the numeric parent pid are the first two whitespace-separated fields after
that last `)`. -/
def parseStatOutermostL (cs : List Char) : Option (Nat × String × Char × Nat) :=
  let pd := cs.takeWhile Char.isDigit
  if pd = [] then none
  else
    match cs.drop pd.length with
    | ' ' :: '(' :: rest =>
      let tailRev := rest.reverse.takeWhile (fun c => c ≠ ')')
      if tailRev.length = rest.length then none
      else
        let comm := rest.take (rest.length - tailRev.length - 1)
        match wsplitL tailRev.reverse with
        | st :: pp :: _ =>
          if st.length = 1 ∧ pp ≠ [] ∧ pp.all Char.isDigit then
            some (digitsToNat pd, String.mk comm, st.getD 0 ' ', digitsToNat pp)
          else none
        | _ => none
    | _ => none

/-- String-level entry point of the spec-side outermost extraction. -/
def parseStatOutermost (s : String) : Option (Nat × String × Char × Nat) :=
  parseStatOutermostL s.data

/-- A `/proc/<pid>/stat` record whose comm (`a) R 123 x`, legal: comm may
contain any of these characters) embeds the pattern `) R 123`. -/
def statLineX : String := "55 (a) R 123 x) S 1 2"

/-- C4 counterexample: on `statLineX` the code's regex stops at the first
embedded `) R 123` pattern and reports name "a", state 'R', ppid 123,
while the outermost-parenthesis convention the claim asserts gives name
"a) R 123 x", state 'S', ppid 1. -/
theorem c4_stat_regex_counterexample :
    parseStatLinux statLineX = some (55, "a", 'R', 123) ∧
      parseStatOutermost statLineX = some (55, "a) R 123 x", 'S', 1) ∧
      (some (55, "a", 'R', 123) : Option (Nat × String × Char × Nat)) ≠
        some (55, "a) R 123 x", 'S', 1) := by decide

/-- `takeWhile` passes over a block that satisfies the predicate. -/
theorem takeWhile_all_append (p : Char → Bool) :
    ∀ l r : List Char, (∀ c ∈ l, p c) →
      (l ++ r).takeWhile p = l ++ r.takeWhile p := by
  intro l
  induction l with
  | nil => intro r _; simp
  | cons c cs ih =>
    intro r h
    have hc : p c := h c (by simp)
    simp [List.takeWhile_cons, hc, ih r (fun x hx => h x (by simp [hx]))]

/-- `takeWhile` stops immediately at a failing head. -/
theorem takeWhile_nil_of_head (p : Char → Bool) (r : List Char)
    (h : ∀ c, r.head? = some c → ¬ p c) : r.takeWhile p = [] := by
  cases r with
  | nil => rfl
  | cons c cs =>
    have := h c rfl
    simp [List.takeWhile, this]

/-- One unfolding step of the comm scan on a cons cell. -/
theorem scanComm_step (acc : List Char) (ch : Char) (rest : List Char) :
    scanComm acc (ch :: rest) =
      if ch = ')' then
        match splitTail rest with
        | some (c, ds) =>
          if acc = [] then scanComm [')'] rest else some (acc.reverse, c, ds)
        | none => scanComm (')' :: acc) rest
      else if ch = '\n' then none
      else scanComm (ch :: acc) rest := rfl

/-- The comm scan consumes any block free of `)` and `\n` unchanged. -/
theorem scanComm_consume :
    ∀ (l acc s : List Char), (∀ c ∈ l, c ≠ ')' ∧ c ≠ '\n') →
      scanComm acc (l ++ s) = scanComm (l.reverse ++ acc) s := by
  intro l
  induction l with
  | nil => intro acc s _; simp
  | cons c cs ih =>
    intro acc s h
    have hc := h c (by simp)
    rw [List.cons_append, scanComm_step, if_neg hc.1, if_neg hc.2,
      ih (c :: acc) s (fun x hx => h x (by simp [hx]))]
    simp

/-- The comm scan succeeds at a `)` whose continuation matches, provided at
least one comm character has been read. -/
theorem scanComm_rparen_hit (acc rest : List Char) (c : Char) (ds : List Char)
    (hs : splitTail rest = some (c, ds)) (hacc : acc ≠ []) :
    scanComm acc (')' :: rest) = some (acc.reverse, c, ds) := by
  rw [scanComm_step, if_pos rfl, hs]
  simp [hacc]

/-- C4 (amended): the code's extraction agrees with the
outermost-parenthesis convention for every comm that contains no `)` (it
may freely contain `(`, spaces and digits); the counterexample above
shows the agreement genuinely fails once the comm embeds a
`") <state> <digits>"` pattern. -/
theorem c4_stat_roundtrip_no_rparen
    (pd comm ppd tail : List Char) (st : Char)
    (hpd : pd ≠ []) (hpdd : ∀ c ∈ pd, c.isDigit)
    (hcomm : comm ≠ []) (hcc : ∀ c ∈ comm, c ≠ ')' ∧ c ≠ '\n')
    (hst : ¬ st.isWhitespace)
    (hppd : ppd ≠ []) (hppdd : ∀ c ∈ ppd, c.isDigit)
    (htail : ∀ c, tail.head? = some c → ¬ c.isDigit) :
    parseStatLinux (String.mk
        (pd ++ ' ' :: '(' :: (comm ++ ')' :: ' ' :: st :: ' ' :: (ppd ++ tail)))) =
      some (digitsToNat pd, String.mk comm, st, digitsToNat ppd) := by
  show parseStatL
      (pd ++ ' ' :: '(' :: (comm ++ ')' :: ' ' :: st :: ' ' :: (ppd ++ tail))) = _
  have h1 : (pd ++ ' ' :: '(' :: (comm ++ ')' :: ' ' :: st :: ' ' :: (ppd ++ tail))).takeWhile
      Char.isDigit = pd := by
    rw [takeWhile_all_append Char.isDigit pd _ hpdd]
    simp [List.takeWhile]
  have h2 : (pd ++ ' ' :: '(' :: (comm ++ ')' :: ' ' :: st :: ' ' :: (ppd ++ tail))).drop
      pd.length = ' ' :: '(' :: (comm ++ ')' :: ' ' :: st :: ' ' :: (ppd ++ tail)) :=
    List.drop_left pd _
  obtain ⟨d, ppt, rfl⟩ : ∃ d ppt, ppd = d :: ppt := by
    cases ppd with
    | nil => exact absurd rfl hppd
    | cons d ppt => exact ⟨d, ppt, rfl⟩
  have hd : d.isDigit := hppdd d (by simp)
  have hsplit : splitTail (' ' :: st :: ' ' :: (d :: (ppt ++ tail))) =
      some (st, d :: (ppt ++ tail)) := by
    simp [splitTail, hst, hd]
  have haccne : (comm.reverse ++ ([] : List Char)) ≠ [] := by
    simp only [List.append_nil, ne_eq, List.reverse_eq_nil_iff]
    exact hcomm
  have hscan : scanComm []
      (comm ++ ')' :: ' ' :: st :: ' ' :: (d :: ppt ++ tail)) =
      some (comm, st, d :: (ppt ++ tail)) := by
    rw [scanComm_consume comm [] _ hcc]
    have := scanComm_rparen_hit (comm.reverse ++ [])
      (' ' :: st :: ' ' :: (d :: (ppt ++ tail))) st (d :: (ppt ++ tail))
      hsplit haccne
    simpa using this
  have h3 : ((d :: ppt) ++ tail).takeWhile Char.isDigit = d :: ppt := by
    have : ((d :: ppt) ++ tail).takeWhile Char.isDigit =
        (d :: ppt) ++ tail.takeWhile Char.isDigit :=
      takeWhile_all_append Char.isDigit (d :: ppt) tail hppdd
    simpa [takeWhile_nil_of_head Char.isDigit tail htail] using this
  simp only [List.cons_append] at h1 h2 hscan h3 ⊢
  simp only [parseStatL, h1, h2, if_neg hpd, hscan, h3]

/-- C4 witness: the amended round-trip evaluated on a concrete record whose
comm contains a parenthesis, spaces and digits. -/
theorem c4_witness :
    parseStatLinux (String.mk
        ("55".data ++ ' ' :: '(' :: ("a(b 7 c".data ++ ')' :: ' ' :: 'S' :: ' ' ::
          ("123".data ++ " 4".data)))) =
      some (digitsToNat "55".data, String.mk "a(b 7 c".data, 'S',
        digitsToNat "123".data) :=
  c4_stat_roundtrip_no_rparen "55".data "a(b 7 c".data "123".data " 4".data 'S'
    (by decide) (by decide) (by decide) (by decide) (by decide) (by decide)
    (by decide) (by decide)

/-! ## Source classifier (`detect_source`, wayr.py lines 536-596) -/

/-- Character class `[a-zA-Z0-9._-]` of the systemd unit regex. -/
def unitClassChar (c : Char) : Bool :=
  ('a' ≤ c ∧ c ≤ 'z') ∨ ('A' ≤ c ∧ c ≤ 'Z') ∨ c.isDigit ∨ c = '.' ∨ c = '_' ∨ c = '-'

/-- The alternation `(service|socket|timer)` tried in written order at the
current position. -/
def unitKw (l : List Char) : Option (List Char) :=
  if chPref "service".data l then some "service".data
  else if chPref "socket".data l then some "socket".data
  else if chPref "timer".data l then some "timer".data
  else none

/-- Greedy backtracking of `[a-zA-Z0-9._-]+` inside a maximal class run:
try the largest split first (the `+` shrinks from its maximal match), and
at each split require a literal `.` followed by one of the keywords;
returns the whole group-1 text. -/
def unitTryK (run : List Char) : Nat → Option (List Char)
  | 0 => none
  | k + 1 =>
    (match run.drop (k + 1) with
     | '.' :: after =>
       match unitKw after with
       | some kw => some (run.take (k + 1) ++ '.' :: kw)
       | none => none
     | _ => none).orElse fun _ => unitTryK run k

/-- Attempt of `re.search(r'([a-zA-Z0-9._-]+\.(service|socket|timer))', _)`
anchored at the current position: the greedy `+` first takes the maximal
class run, then backtracks. -/
def unitMatchHere (s : List Char) : Option (List Char) :=
  match s with
  | [] => none
  | c :: cs =>
    if unitClassChar c then
      let run := c :: cs.takeWhile unitClassChar
      unitTryK run (run.length - 1)
    else none

/-- `re.search` of the unit pattern: try each start position left to right
(leftmost match wins). -/
def unitSearch : List Char → Option (List Char)
  | [] => none
  | s@(_ :: tl) =>
    match unitMatchHere s with
    | some g => some g
    | none => unitSearch tl

/-- External command outputs consumed by `detect_source`: the OS flag
`IS_LINUX`, `systemctl status <pid>` keyed by the queried pid, and
`docker ps --no-trunc` (each as Python's `(returncode, stdout)`). -/
structure ClsEnv where
  isLinux : Bool
  systemctlStatus : Int → Int × String
  dockerPs : Int × String

/-- The `systemctl status` loop of the systemd branch: the first line
containing `.service` or `.socket` on which the unit regex succeeds
supplies the detail; lines that contain the marker but defeat the regex
are skipped (no break in the Python loop without a successful match). -/
def findUnitDetail : List String → Option String
  | [] => none
  | l :: ls =>
    if strContains l ".service" || strContains l ".socket" then
      match unitSearch l.data with
      | some g => some (String.mk g)
      | none => findUnitDetail ls
    else findUnitDetail ls

/-- The detail computed by the systemd branch for a target pid: only on
Linux and only when `systemctl status` exits 0. -/
def systemdDetail (env : ClsEnv) (pid : Int) : Option String :=
  if env.isLinux ∧ (env.systemctlStatus pid).1 = 0 then
    findUnitDetail (pySplitlines (env.systemctlStatus pid).2)
  else none

/-- The systemd branch of `detect_source` (lines 541-552): set the source,
and the detail when the enrichment query finds a unit name (the Python
code sets `source` first and possibly `source_detail` afterwards; the
resulting record is the same). -/
def applySystemd (env : ClsEnv) (p : ProcessInfo) : ProcessInfo :=
  match systemdDetail env p.pid with
  | some d => { p with source := some "systemd", source_detail := some d }
  | none => { p with source := some "systemd" }

/-- One `docker ps` line's effect, when it fires: the container name is
the last column, the image the second, the detail the container name
(lines 564-570). -/
def dockerSetter (pidStr : String) (line : String) : Option (String × String) :=
  if strContains line pidStr then
    let parts := wsplitL line.data
    if parts.length > 1 then
      some (String.mk (parts.getLastD []), String.mk (parts.getD 1 []))
    else none
  else none

/-- Write a fired docker line's fields into the record. -/
def dockerSet (p : ProcessInfo) (yc : String × String) : ProcessInfo :=
  { p with container_name := some yc.1, container_image := some yc.2,
           source_detail := some yc.1 }

/-- Per-line step of the docker enrichment loop (no break: a later
matching line overwrites an earlier one). -/
def dockerLine (pidStr : String) (p : ProcessInfo) (line : String) : ProcessInfo :=
  match dockerSetter pidStr line with
  | some yc => dockerSet p yc
  | none => p

/-- The docker branch of `detect_source` (lines 560-571). -/
def applyDocker (env : ClsEnv) (p : ProcessInfo) : ProcessInfo :=
  let p1 := { p with source := some "docker" }
  if (env.dockerPs).1 = 0 then
    (pySplitlines (env.dockerPs).2).foldl (dockerLine (toString p.pid)) p1
  else p1

/-- The fixed shell-name set of the interactive-shell rule (line 589). -/
def shellNames : List String := ["bash", "zsh", "fish", "sh", "dash", "tcsh", "csh"]

/-- The classifier scan over the (already reversed) ancestry: for each
ancestor the rules are tried in the written priority order, and the first
ancestor with a matching rule wins (`return`); if no ancestor matches and
the process's `source` is still falsy (Python truthiness: `None` or the
empty string), it becomes `"unknown"`. -/
def dsGo (env : ClsEnv) : List ProcessInfo → ProcessInfo → ProcessInfo
  | [], p =>
    if p.source = none ∨ p.source = some "" then { p with source := some "unknown" }
    else p
  | a :: rest, p =>
    if a.name = "systemd" ∧ a.pid ≠ 1 then applySystemd env p
    else if a.name = "launchd" then { p with source := some "launchd" }
    else if strContains a.name "docker" ∨ strContains a.name "containerd" then
      applyDocker env p
    else if strContains a.cmd "PM2" ∨ strContains a.name "pm2" then
      { p with source := some "pm2" }
    else if strContains a.name "supervisor" then { p with source := some "supervisor" }
    else if a.name = "cron" ∨ strContains a.cmd "CRON" then { p with source := some "cron" }
    else if a.name ∈ shellNames then
      { p with source := some "interactive shell", source_detail := some a.name }
    else dsGo env rest p

/-- `detect_source(proc)` with the resolved ancestry passed explicitly:
the Python loop iterates `reversed(proc.ancestry)` (nearest ancestor
first). -/
def detectSource (env : ClsEnv) (anc : List ProcessInfo) (p : ProcessInfo) :
    ProcessInfo :=
  dsGo env anc.reverse p

/-! ### Fixtures and theorems for C1 -/

/-- Classifier environment for the C1 chain: Linux, both external queries
fail (irrelevant to the branch actually taken). -/
def clsEnvC1 : ClsEnv :=
  { isLinux := true, systemctlStatus := fun _ => (1, ""), dockerPs := (1, "") }

/-- Root-first ancestry `[init(pid 1), systemd-unit, docker, bash]`. -/
def ancC1 : List ProcessInfo :=
  [mkPI 1 0 "systemd" "/sbin/init",
   mkPI 2 1 "systemd" "/lib/systemd/systemd --user",
   mkPI 3 2 "dockerd" "/usr/bin/dockerd --host=fd://",
   mkPI 4 3 "bash" "bash"]

/-- Target process whose direct parent is the bash ancestor. -/
def targetC1 : ProcessInfo := mkPI 5 4 "python" "python app.py"

/-- C1 counterexample: on the chain `[init(pid1), systemd-unit, docker,
bash]` the classifier does *not* assign `docker` — the scan runs from the
nearest ancestor outward and bash matches the shell rule first. -/
theorem c1_docker_chain_counterexample :
    (detectSource clsEnvC1 ancC1 targetC1).source ≠ some "docker" := by decide

/-- C1 (amended): the chain `[init(pid1), systemd-unit, docker, bash]` is
classified `interactive shell` with detail `bash`: nearest-match wins, and
the nearest ancestor is the shell. -/
theorem c1_docker_chain_classifies_shell :
    (detectSource clsEnvC1 ancC1 targetC1).source = some "interactive shell" ∧
      (detectSource clsEnvC1 ancC1 targetC1).source_detail = some "bash" := by
  decide

/-! ### Idempotence of the classifier (C8) -/

/-- The docker loop's net effect is determined by the last line that
fires. -/
def lastSetter (pidStr : String) (lines : List String) : Option (String × String) :=
  lines.reverse.findSome? (dockerSetter pidStr)

/-- Folding the docker per-line step equals applying the last firing
line's fields (or nothing). -/
theorem foldl_dockerLine (pidStr : String) (lines : List String) :
    ∀ p, lines.foldl (dockerLine pidStr) p =
      match lastSetter pidStr lines with
      | some yc => dockerSet p yc
      | none => p := by
  induction lines using List.reverseRecOn with
  | nil => intro p; simp [lastSetter]
  | append_singleton ls a ih =>
    intro p
    rw [List.foldl_append, List.foldl_cons, List.foldl_nil, ih]
    simp only [lastSetter, List.reverse_append, List.reverse_cons,
      List.reverse_nil, List.nil_append, List.singleton_append,
      List.findSome?_cons]
    cases hs : dockerSetter pidStr a with
    | some y =>
      cases hls : (List.findSome? (dockerSetter pidStr) ls.reverse) with
      | some z => simp [dockerLine, hs, dockerSet]
      | none => simp [dockerLine, hs]
    | none =>
      cases hls : (List.findSome? (dockerSetter pidStr) ls.reverse) with
      | some z => simp [dockerLine, hs]
      | none => simp [dockerLine, hs]

/-- The systemd branch always sets the source to `"systemd"`. -/
theorem applySystemd_source (env : ClsEnv) (p : ProcessInfo) :
    (applySystemd env p).source = some "systemd" := by
  unfold applySystemd
  cases systemdDetail env p.pid <;> rfl

/-- The docker branch always sets the source to `"docker"`. -/
theorem applyDocker_source (env : ClsEnv) (p : ProcessInfo) :
    (applyDocker env p).source = some "docker" := by
  unfold applyDocker
  split
  · rw [foldl_dockerLine]
    cases lastSetter (toString p.pid) (pySplitlines (env.dockerPs).2) <;> rfl
  · rfl

/-- The systemd branch is idempotent. -/
theorem applySystemd_idem (env : ClsEnv) (p : ProcessInfo) :
    applySystemd env (applySystemd env p) = applySystemd env p := by
  unfold applySystemd
  cases h : systemdDetail env p.pid with
  | some d => simp [h]
  | none => simp [h]

/-- The docker branch is idempotent. -/
theorem applyDocker_idem (env : ClsEnv) (p : ProcessInfo) :
    applyDocker env (applyDocker env p) = applyDocker env p := by
  by_cases hrc : (env.dockerPs).1 = 0
  · simp only [applyDocker, if_pos hrc, foldl_dockerLine]
    cases hls : lastSetter (toString p.pid) (pySplitlines (env.dockerPs).2) with
    | some y => simp [hls, dockerSet]
    | none => simp [hls]
  · simp [applyDocker, if_neg hrc]

/-- The classifier scan is idempotent. -/
theorem dsGo_idem (env : ClsEnv) :
    ∀ (l : List ProcessInfo) (p : ProcessInfo),
      dsGo env l (dsGo env l p) = dsGo env l p := by
  intro l
  induction l with
  | nil =>
    intro p
    by_cases h : p.source = none ∨ p.source = some ""
    · simp [dsGo, h]
    · simp [dsGo, h]
  | cons a rest ih =>
    intro p
    simp only [dsGo]
    split_ifs with h1 h2 h3 h4 h5 h6 h7
    · exact applySystemd_idem env p
    · rfl
    · exact applyDocker_idem env p
    · rfl
    · rfl
    · rfl
    · rfl
    · exact ih p

/-- The classifier never leaves the source unset. -/
theorem dsGo_source_set (env : ClsEnv) :
    ∀ (l : List ProcessInfo) (p : ProcessInfo), (dsGo env l p).source ≠ none := by
  intro l
  induction l with
  | nil =>
    intro p
    by_cases h : p.source = none ∨ p.source = some ""
    · simp [dsGo, h]
    · simp only [dsGo, if_neg h]
      intro hc
      exact h (Or.inl hc)
  | cons a rest ih =>
    intro p
    simp only [dsGo]
    split_ifs with h1 h2 h3 h4 h5 h6 h7
    · simp [applySystemd_source]
    · simp
    · simp [applyDocker_source]
    · simp
    · simp
    · simp
    · simp
    · exact ih p

/-- C8: with the ancestry resolved (and the external query outputs fixed
in the environment), running `detect_source` a second time reproduces the
entire record of the first run — in particular `source`, `source_detail`,
`container_name` and `container_image` — and the source is never
null/absent (a no-match chain yields `"unknown"`). -/
theorem c8_classify_idempotent (env : ClsEnv) (anc : List ProcessInfo)
    (p : ProcessInfo) :
    detectSource env anc (detectSource env anc p) = detectSource env anc p ∧
      (detectSource env anc p).source ≠ none :=
  ⟨dsGo_idem env anc.reverse p, dsGo_source_set env anc.reverse p⟩

/-! ## Port resolution (`find_process_by_port*`, wayr.py lines 353-453,
and `detect_listening_ports_linux_proc`, lines 649-696) -/

/-- The inline conversion
`'.'.join(str(int(a[i:i+2], 16)) for i in range(6, -1, -2))` (lines
415-416 and 687-688): the four byte pairs of an 8-hex-digit address read
in reverse order; a non-hex character makes `int(_, 16)` raise (`none`,
which aborts the surrounding file loop like the `except: continue`). -/
def ipv4OfHex (a : List Char) : Option String :=
  match pyIntHex ((a.drop 6).take 2), pyIntHex ((a.drop 4).take 2),
      pyIntHex ((a.drop 2).take 2), pyIntHex (a.take 2) with
  | some b3, some b2, some b1, some b0 =>
    some (Nat.repr b3 ++ "." ++ Nat.repr b2 ++ "." ++ Nat.repr b1 ++ "." ++
      Nat.repr b0)
  | _, _, _, _ => none

/-- Environment of the /proc-based port resolver: the two kernel socket
tables (an unopenable table is `error`), one entry per line, and the
fd-scanning inode-owner lookup `find_process_by_socket_inode_linux`,
modelled as a function of the inode text (its result is determined by the
/proc fd tables; it returns a fresh snapshot of the first matching pid,
or `none`). -/
structure NetEnv where
  tcp : Except Unit (List String)
  tcp6 : Except Unit (List String)
  inodeOwner : String → Option ProcessInfo

/-- Per-file loop of `find_process_by_port_linux_proc` (lines 395-421):
whitespace-split each line, require ≥ 10 fields, LISTEN state `0A`, and
the queried port (in upper-case hex) in the local-address field; resolve
the inode's owner, render the address — dotted-decimal for 8 hex digits,
the *raw* hex literal otherwise — append `<ip>:<port>` to the owner's
address list, and add the owner to the results unless an equal record is
already present.  A raised hex-parse error abandons the rest of the file
but keeps the results gathered so far. -/
def portFileLoop (env : NetEnv) (port : Nat) :
    List String → List ProcessInfo → List ProcessInfo
  | [], acc => acc
  | line :: rest, acc =>
    let parts := wsplitL line.data
    if parts.length < 10 then portFileLoop env port rest acc
    else
      let localAddr := parts.getD 1 []
      let state := parts.getD 3 []
      let inode := parts.getD 9 []
      if state ≠ "0A".data then portFileLoop env port rest acc
      else if subOf ":".data localAddr then
        let addrPort := (splitOnChar ':' localAddr).getD 1 []
        if pyUpperL addrPort = pyUpperL (toHex4 port) then
          match env.inodeOwner (String.mk inode) with
          | some pi0 =>
            let addrIp := (splitOnChar ':' localAddr).getD 0 []
            let ipStr? : Option String :=
              if addrIp.length = 8 then ipv4OfHex addrIp
              else some (String.mk addrIp)
            match ipStr? with
            | none => acc
            | some ipStr =>
              let pi1 := { pi0 with listening_addresses :=
                  pi0.listening_addresses ++ [ipStr ++ ":" ++ Nat.repr port] }
              portFileLoop env port rest (if pi1 ∈ acc then acc else acc ++ [pi1])
          | none => portFileLoop env port rest acc
        else portFileLoop env port rest acc
      else portFileLoop env port rest acc

/-- `find_process_by_port_linux_proc(port)` (lines 388-425): the tcp
table, then the tcp6 table threading the accumulated results; an
unopenable table is skipped. -/
def findProcessByPortLinuxProc (env : NetEnv) (port : Nat) : List ProcessInfo :=
  let acc1 :=
    match env.tcp with
    | .ok lines => portFileLoop env port lines []
    | .error _ => []
  match env.tcp6 with
  | .ok lines => portFileLoop env port lines acc1
  | .error _ => acc1

/-- Environment of `detect_listening_ports_linux_proc`: the target's fd
directory (`error` when missing/unreadable), each entry's readlink result,
and the kernel socket tables. -/
structure DetEnv where
  fdLinks : Except Unit (List (Except Unit String))
  tcp : Except Unit (List String)
  tcp6 : Except Unit (List String)

/-- Socket inode set of the fd scan (lines 656-664): links of the form
`socket:[...]` contribute the text between index 8 and the final
character; the Python `set` is modelled as a dedup-on-insert list. -/
def socketInodes (links : List (Except Unit String)) : List String :=
  links.foldl (fun acc l =>
    match l with
    | .ok s =>
      if chPref "socket:[".data s.data then
        let ino := String.mk ((s.data.drop 8).dropLast)
        if ino ∈ acc then acc else acc ++ [ino]
      else acc
    | .error _ => acc) []

/-- Per-file loop of `detect_listening_ports_linux_proc` (lines 671-692):
LISTEN lines whose inode belongs to the target get `<ip>:<port>` appended
unconditionally, with the *bracketed* literal hex form for non-8-digit
addresses.  The unpack `addr_hex, port_hex = local_addr.split(':')` raises
unless there are exactly two pieces, and a raised error abandons the rest
of the file. -/
def detFileLoop (inodes : List String) :
    List String → ProcessInfo → ProcessInfo
  | [], p => p
  | line :: rest, p =>
    let parts := wsplitL line.data
    if parts.length < 10 then detFileLoop inodes rest p
    else
      let localAddr := parts.getD 1 []
      let state := parts.getD 3 []
      let inode := parts.getD 9 []
      if state = "0A".data ∧ String.mk inode ∈ inodes then
        if subOf ":".data localAddr then
          match splitOnChar ':' localAddr with
          | [addrHex, portHex] =>
            (match pyIntHex portHex with
             | none => p
             | some port =>
               let ipStr? : Option String :=
                 if addrHex.length = 8 then ipv4OfHex addrHex
                 else some ("[" ++ String.mk addrHex ++ "]")
               match ipStr? with
               | none => p
               | some ipStr =>
                 detFileLoop inodes rest
                   { p with listening_addresses :=
                       p.listening_addresses ++ [ipStr ++ ":" ++ Nat.repr port] })
          | _ => p
        else detFileLoop inodes rest p
      else detFileLoop inodes rest p

/-- `detect_listening_ports_linux_proc(proc)` (lines 649-696): collect the
target's socket inodes, return unchanged when there are none, otherwise
scan both socket tables. -/
def detectListeningPortsLinuxProc (env : DetEnv) (p : ProcessInfo) : ProcessInfo :=
  match env.fdLinks with
  | .error _ => p
  | .ok links =>
    let inodes := socketInodes links
    if inodes = [] then p
    else
      let p1 :=
        match env.tcp with
        | .ok lines => detFileLoop inodes lines p
        | .error _ => p
      match env.tcp6 with
      | .ok lines => detFileLoop inodes lines p1
      | .error _ => p1

/-- Environment of `find_process_by_port`: the pid-listing `lsof` call,
then, per loop iteration (external state may change between calls), the
snapshot provider `get_process_info` and the per-pid `lsof` address
query, each as Python's `(returncode, stdout)`. -/
structure PortEnv where
  lsofList : Int × String
  snapAt : Nat → Int → Option ProcessInfo
  lsofAddrAt : Nat → Int → Int × String
  isLinux : Bool
  fallback : NetEnv

/-- The LISTEN-line address harvest (lines 369-375): lines containing
`LISTEN` with ≥ 9 columns contribute column 8, skipping values already
present. -/
def addrHarvest (out : String) (addrs : List String) : List String :=
  (splitOnChar '\n' out.data).foldl (fun acc lineCs =>
    if subOf "LISTEN".data lineCs then
      let parts := wsplitL lineCs
      if parts.length ≥ 9 then
        let addr := String.mk (parts.getD 8 [])
        if addr ∈ acc then acc else acc ++ [addr]
      else acc
    else acc) addrs

/-- Per-pid-line loop of the primary strategy (lines 360-379): an empty
line or an unparseable pid (`except: pass`) or a vanished process is
skipped; otherwise the snapshot gets its addresses harvested and is added
to the results unless an equal record is already present. -/
def portPidLoop (env : PortEnv) :
    List (List Char) → Nat → List ProcessInfo → List ProcessInfo
  | [], _, acc => acc
  | lineCs :: rest, i, acc =>
    if lineCs = [] then portPidLoop env rest (i + 1) acc
    else
      match pyInt lineCs with
      | none => portPidLoop env rest (i + 1) acc
      | some pid =>
        match env.snapAt i pid with
        | none => portPidLoop env rest (i + 1) acc
        | some pi0 =>
          let r2 := env.lsofAddrAt i pid
          let pi1 :=
            if r2.1 = 0 then
              { pi0 with listening_addresses :=
                  addrHarvest r2.2 pi0.listening_addresses }
            else pi0
          portPidLoop env rest (i + 1) (if pi1 ∈ acc then acc else acc ++ [pi1])

/-- `find_process_by_port(port)` (lines 353-385): the lsof strategy, then
— only when it produced nothing and the platform is Linux — the /proc
fallback extends the (empty) result list. -/
def findProcessByPort (env : PortEnv) (port : Nat) : List ProcessInfo :=
  let processes :=
    if env.lsofList.1 = 0 then
      portPidLoop env (splitOnChar '\n' (pyStripL env.lsofList.2.data)) 0 []
    else []
  if processes = [] ∧ env.isLinux then
    processes ++ findProcessByPortLinuxProc env.fallback port
  else processes

/-! ### C5: deduplication of the primary port strategy -/

/-- lsof reports pid 5 on two lines; the two successive snapshots of pid 5
differ in `start_time` (the provider derives it from `datetime.now()`,
which advances between the two calls). -/
def portEnvC5 : PortEnv :=
  { lsofList := (0, "5\n5"),
    snapAt := fun i pid =>
      if pid = 5 then
        some { mkPI 5 1 "nginx" "nginx: master process" with
                 start_time := if i = 0 then 100 else 101 }
      else none,
    lsofAddrAt := fun _ _ => (1, ""),
    isLinux := false,
    fallback := { tcp := .error (), tcp6 := .error (),
                  inodeOwner := fun _ => none } }

/-- C5 counterexample: the result of the primary strategy contains pid 5
twice — the `not in` dedup compares whole records (`dataclass ==`), and
the two snapshots differ in `start_time`. -/
theorem c5_same_pid_twice :
    ((findProcessByPort portEnvC5 80).map (fun p => p.pid)) = [5, 5] ∧
      ¬ ((findProcessByPort portEnvC5 80).map (fun p => p.pid)).Nodup := by
  decide

/-- Inserting an element only when absent preserves `Nodup`. -/
theorem nodup_insert_absent {α : Type} [DecidableEq α] (acc : List α) (x : α)
    (h : acc.Nodup) : (if x ∈ acc then acc else acc ++ [x]).Nodup := by
  split
  · exact h
  · rename_i hx
    rw [List.nodup_append]
    refine ⟨h, List.nodup_singleton x, ?_⟩
    intro a ha hmem
    rw [List.mem_singleton] at hmem
    exact hx (hmem ▸ ha)

/-- The primary pid loop preserves `Nodup`. -/
theorem portPidLoop_nodup (env : PortEnv) :
    ∀ (lines : List (List Char)) (i : Nat) (acc : List ProcessInfo),
      acc.Nodup → (portPidLoop env lines i acc).Nodup := by
  intro lines
  induction lines with
  | nil => intro i acc h; exact h
  | cons l rest ih =>
    intro i acc h
    simp only [portPidLoop]
    split
    · exact ih _ _ h
    · cases hp : pyInt l with
      | none => simp only [hp]; exact ih _ _ h
      | some pid =>
        simp only [hp]
        cases hsn : env.snapAt i pid with
        | none => simp only [hsn]; exact ih _ _ h
        | some pi0 =>
          simp only [hsn]
          exact ih _ _ (nodup_insert_absent _ _ h)

/-- The fallback file loop preserves `Nodup`. -/
theorem portFileLoop_nodup (env : NetEnv) (port : Nat) :
    ∀ (lines : List String) (acc : List ProcessInfo),
      acc.Nodup → (portFileLoop env port lines acc).Nodup := by
  intro lines
  induction lines with
  | nil => intro acc h; exact h
  | cons l rest ih =>
    intro acc h
    simp only [portFileLoop]
    split
    · exact ih _ h
    · split
      · exact ih _ h
      · split
        · split
          · cases hio : NetEnv.inodeOwner env (String.mk ((wsplitL l.data).getD 9 [])) with
            | none => simp only [hio]; exact ih _ h
            | some pi0 =>
              simp only [hio]
              split
              · exact h
              · exact ih _ (nodup_insert_absent _ _ h)
          · exact ih _ h
        · exact ih _ h

/-- The fallback resolver returns a `Nodup` list. -/
theorem findLinuxProc_nodup (env : NetEnv) (port : Nat) :
    (findProcessByPortLinuxProc env port).Nodup := by
  unfold findProcessByPortLinuxProc
  have h1 : (match env.tcp with
      | .ok lines => portFileLoop env port lines []
      | .error _ => []).Nodup := by
    cases env.tcp with
    | ok lines => exact portFileLoop_nodup env port lines [] (by simp)
    | error e => simp
  cases env.tcp6 with
  | ok lines => exact portFileLoop_nodup env port lines _ h1
  | error e => exact h1

/-- C5 (amended): `find_process_by_port` deduplicates by whole-record
equality (Python `dataclass ==`): the result never contains two *equal*
records — though, as the counterexample shows, it can contain two records
with the same pid when the snapshots differ in another field. -/
theorem c5_result_nodup (env : PortEnv) (port : Nat) :
    (findProcessByPort env port).Nodup := by
  unfold findProcessByPort
  by_cases hrc : env.lsofList.1 = 0
  · simp only [if_pos hrc]
    by_cases hc :
        portPidLoop env (splitOnChar '\n' (pyStripL env.lsofList.2.data)) 0 [] = []
          ∧ env.isLinux = true
    · rw [if_pos hc, hc.1]
      simpa using findLinuxProc_nodup env.fallback port
    · rw [if_neg hc]
      exact portPidLoop_nodup env _ 0 [] (by simp)
  · simp only [if_neg hrc]
    by_cases hlin : env.isLinux = true
    · rw [if_pos ⟨trivial, hlin⟩]
      simpa using findLinuxProc_nodup env.fallback port
    · rw [if_neg (by simp [hlin])]
      simp

/-! ### C7: reversed-byte-order IPv4 rendering -/

/-- A socket table with one LISTEN line for `0100007F:1F90` owned (via
inode 777) by a concrete process. -/
def netEnvC7 : NetEnv :=
  { tcp := .ok ["  0: 0100007F:1F90 00000000:0000 0A 00000000:00000000 00:00000000 00000000 1000 0 777 1"],
    tcp6 := .ok [],
    inodeOwner := fun s =>
      if s = "777" then some (mkPI 12 1 "java" "java -jar app.jar") else none }

/-- Value of a rendered hex digit (16 cases). -/
theorem hexVal_hexDigitU : ∀ y, y < 16 → hexVal (hexDigitU y) = some y := by decide

/-- `int(_, 16)` undoes the two-digit hex rendering of a byte. -/
theorem pyIntHex_byte (x : Nat) (hx : x < 256) :
    pyIntHex [hexDigitU (x / 16), hexDigitU (x % 16)] = some x := by
  have h1 : x / 16 < 16 := by omega
  have h2 : x % 16 < 16 := Nat.mod_lt _ (by norm_num)
  simp only [pyIntHex]
  rw [if_neg (by simp)]
  simp only [List.foldl_cons, List.foldl_nil, hexVal_hexDigitU _ h1,
    hexVal_hexDigitU _ h2]
  congr 1
  omega

/-- C7: the fallback resolver turns the LISTEN line `0100007F:1F90` for
port 8080 into the address `127.0.0.1:8080` on the owning process, and in
general the conversion of any 8-hex-digit address renders the four bytes
in reverse order as dotted decimal. -/
theorem c7_ipv4_reversal :
    ((findProcessByPortLinuxProc netEnvC7 8080).map fun p => p.listening_addresses) =
        [["127.0.0.1:8080"]] ∧
      ∀ b0 b1 b2 b3 : Nat, b0 < 256 → b1 < 256 → b2 < 256 → b3 < 256 →
        ipv4OfHex [hexDigitU (b0 / 16), hexDigitU (b0 % 16), hexDigitU (b1 / 16),
            hexDigitU (b1 % 16), hexDigitU (b2 / 16), hexDigitU (b2 % 16),
            hexDigitU (b3 / 16), hexDigitU (b3 % 16)] =
          some (Nat.repr b3 ++ "." ++ Nat.repr b2 ++ "." ++ Nat.repr b1 ++ "." ++
            Nat.repr b0) := by
  constructor
  · decide
  · intro b0 b1 b2 b3 h0 h1 h2 h3
    have hred : ipv4OfHex [hexDigitU (b0 / 16), hexDigitU (b0 % 16),
        hexDigitU (b1 / 16), hexDigitU (b1 % 16), hexDigitU (b2 / 16),
        hexDigitU (b2 % 16), hexDigitU (b3 / 16), hexDigitU (b3 % 16)] =
        match pyIntHex [hexDigitU (b3 / 16), hexDigitU (b3 % 16)],
            pyIntHex [hexDigitU (b2 / 16), hexDigitU (b2 % 16)],
            pyIntHex [hexDigitU (b1 / 16), hexDigitU (b1 % 16)],
            pyIntHex [hexDigitU (b0 / 16), hexDigitU (b0 % 16)] with
        | some v3, some v2, some v1, some v0 =>
          some (Nat.repr v3 ++ "." ++ Nat.repr v2 ++ "." ++ Nat.repr v1 ++ "." ++
            Nat.repr v0)
        | _, _, _, _ => none := rfl
    rw [hred, pyIntHex_byte b3 h3, pyIntHex_byte b2 h2, pyIntHex_byte b1 h1,
      pyIntHex_byte b0 h0]

/-- C7 witness: the general byte-reversal statement applied at the bytes
of `0100007F` (= 127.0.0.1 reversed). -/
theorem c7_witness :
    ipv4OfHex [hexDigitU (1 / 16), hexDigitU (1 % 16), hexDigitU (0 / 16),
        hexDigitU (0 % 16), hexDigitU (0 / 16), hexDigitU (0 % 16),
        hexDigitU (127 / 16), hexDigitU (127 % 16)] =
      some (Nat.repr 127 ++ "." ++ Nat.repr 0 ++ "." ++ Nat.repr 0 ++ "." ++
        Nat.repr 1) :=
  c7_ipv4_reversal.2 1 0 0 127 (by decide) (by decide) (by decide) (by decide)

/-! ### C6: literal hex rendering of non-IPv4-length addresses -/

/-- One unfolding step of the whitespace splitter. -/
theorem wsplitGo_cons (acc : List Char) (c : Char) (cs : List Char) :
    wsplitGo acc (c :: cs) =
      if c.isWhitespace then
        if acc = [] then wsplitGo [] cs else acc.reverse :: wsplitGo [] cs
      else wsplitGo (c :: acc) cs := rfl

/-- The whitespace splitter consumes a whitespace-free block unchanged. -/
theorem wsplitGo_consume :
    ∀ (t acc r : List Char), (∀ c ∈ t, ¬ c.isWhitespace) →
      wsplitGo acc (t ++ r) = wsplitGo (t.reverse ++ acc) r := by
  intro t
  induction t with
  | nil => intro acc r _; simp
  | cons c cs ih =>
    intro acc r h
    have hc : ¬ c.isWhitespace = true := h c (by simp)
    rw [List.cons_append, wsplitGo_cons, if_neg hc,
      ih (c :: acc) r (fun x hx => h x (by simp [hx]))]
    simp

/-- Single-space joining of column tokens (the shape of a socket-table
line). -/
def intercalSp : List (List Char) → List Char
  | [] => []
  | [t] => t
  | t :: rest => t ++ ' ' :: intercalSp rest

/-- Splitting a single-space join of nonempty whitespace-free tokens
recovers exactly the tokens. -/
theorem wsplitL_intercal :
    ∀ toks : List (List Char),
      (∀ t ∈ toks, t ≠ [] ∧ ∀ c ∈ t, ¬ c.isWhitespace) →
      wsplitL (intercalSp toks) = toks := by
  intro toks
  induction toks with
  | nil => intro _; rfl
  | cons t rest ih =>
    intro h
    obtain ⟨hne, hnw⟩ := h t (by simp)
    cases rest with
    | nil =>
      show wsplitGo [] (intercalSp [t]) = [t]
      have h0 : intercalSp [t] = t ++ [] := by simp [intercalSp]
      rw [h0, wsplitGo_consume t [] [] hnw]
      simp [wsplitGo, hne]
    | cons r rrest =>
      show wsplitGo [] (intercalSp (t :: r :: rrest)) = t :: (r :: rrest)
      have h0 : intercalSp (t :: r :: rrest) = t ++ ' ' :: intercalSp (r :: rrest) :=
        rfl
      rw [h0, wsplitGo_consume t [] _ hnw, wsplitGo_cons,
        if_pos (by decide : (' ' : Char).isWhitespace = true),
        if_neg (by simp [hne])]
      rw [show wsplitGo [] (intercalSp (r :: rrest)) = r :: rrest from
        ih (fun x hx => h x (by simp [hx]))]
      simp

/-- A one-character pattern occurs as a substring iff the character is a
member. -/
theorem subOf_single_mem :
    ∀ (l : List Char) (c : Char), c ∈ l → subOf [c] l = true := by
  intro l
  induction l with
  | nil => intro c hc; cases hc
  | cons d ds ih =>
    intro c hc
    rcases List.mem_cons.mp hc with h | h
    · subst h
      simp [subOf, chPref]
    · simp [subOf, ih c h]

/-- One unfolding step of the character splitter. -/
theorem splitOnChar_cons (sep c : Char) (cs : List Char) :
    splitOnChar sep (c :: cs) =
      if c = sep then [] :: splitOnChar sep cs
      else
        match splitOnChar sep cs with
        | [] => [[c]]
        | t :: ts => (c :: t) :: ts := rfl

/-- Splitting at the first separator after a separator-free block. -/
theorem splitOnChar_append (sep : Char) :
    ∀ (l r : List Char), sep ∉ l →
      splitOnChar sep (l ++ sep :: r) = l :: splitOnChar sep r := by
  intro l
  induction l with
  | nil =>
    intro r _
    simp [splitOnChar_cons]
  | cons d ds ih =>
    intro r h
    have hd : ¬ d = sep := fun hc => h (by simp [hc])
    rw [List.cons_append, splitOnChar_cons, if_neg hd,
      ih r (fun hc => h (by simp [hc]))]

/-- Field tokens of a synthetic socket-table line in LISTEN state with the
given local-address and inode tokens. -/
def netTokens (localTok inodeTok : List Char) : List (List Char) :=
  ["0:".data, localTok, "00000000:0000".data, "0A".data,
   "00000000:00000000".data, "00:00000000".data, "00000000".data,
   "0".data, "22".data, inodeTok]

/-- The synthetic socket-table line itself. -/
def netLine (localTok inodeTok : List Char) : List Char :=
  intercalSp (netTokens localTok inodeTok)

/-- Port-resolver environment: only the tcp6 table has one LISTEN entry on
hex port `1F90` (= 8080) with the given local address, owned via inode
12345 by the given process. -/
def netEnvA (hex : List Char) (pi0 : ProcessInfo) : NetEnv :=
  { tcp := .ok [],
    tcp6 := .ok [String.mk (netLine (hex ++ ':' :: "1F90".data) "12345".data)],
    inodeOwner := fun s => if s = "12345" then some pi0 else none }

/-- Listening-ports-detector environment over the same table; the target
holds socket inode 12345. -/
def detEnvB (hex : List Char) : DetEnv :=
  { fdLinks := .ok [.ok "socket:[12345]"],
    tcp := .ok [],
    tcp6 := .ok [String.mk (netLine (hex ++ ':' :: "1F90".data) "12345".data)] }

/-- Concrete target for the C6 counterexample. -/
def pi0C6 : ProcessInfo := mkPI 9 1 "node" "node server.js"

/-- A 32-hex-digit (IPv6-length) local address. -/
def hex32 : List Char := List.replicate 32 '0'

/-- C6 counterexample: for a 32-digit local address the *port resolver's*
fallback appends the raw unbracketed literal `<hex>:<port>`, not the
claimed bracketed `[<hex>]:<port>`. -/
theorem c6_unbracketed_counterexample :
    ((findProcessByPortLinuxProc (netEnvA hex32 pi0C6) 8080).map
        fun p => p.listening_addresses) =
      [[String.mk hex32 ++ ":" ++ Nat.repr 8080]] ∧
      String.mk hex32 ++ ":" ++ Nat.repr 8080 ≠
        ("[" ++ String.mk hex32 ++ "]") ++ ":" ++ Nat.repr 8080 := by decide

/-- C6 (amended, part of): for every non-IPv4-length local address the
port resolver's fallback renders the raw unbracketed hex literal
`<hex>:<port>`, while the listening-ports detector is the function that
renders the bracketed `[<hex>]:<port>` form. -/
theorem c6_hex_literal_forms (hex : List Char) (pi0 : ProcessInfo)
    (hlen8 : hex.length ≠ 8)
    (hch : ∀ c ∈ hex, ¬ c.isWhitespace ∧ c ≠ ':') :
    findProcessByPortLinuxProc (netEnvA hex pi0) 8080 =
      [{ pi0 with listening_addresses :=
          pi0.listening_addresses ++
            [String.mk hex ++ ":" ++ Nat.repr 8080] }] ∧
    detectListeningPortsLinuxProc (detEnvB hex) pi0 =
      { pi0 with listening_addresses :=
          pi0.listening_addresses ++
            [("[" ++ String.mk hex ++ "]") ++ ":" ++ Nat.repr 8080] } := by
  have htoks : ∀ t ∈ netTokens (hex ++ ':' :: "1F90".data) "12345".data,
      t ≠ [] ∧ ∀ c ∈ t, ¬ c.isWhitespace := by
    intro t ht
    simp only [netTokens, List.mem_cons, List.not_mem_nil, or_false] at ht
    rcases ht with rfl | rfl | rfl | rfl | rfl | rfl | rfl | rfl | rfl | rfl
    · exact ⟨by decide, by decide⟩
    · refine ⟨by simp, ?_⟩
      intro c hc
      rcases List.mem_append.mp hc with h | h
      · exact (hch c h).1
      · simp only [List.mem_cons] at h
        rcases h with rfl | h
        · decide
        · simp only [List.mem_cons, List.not_mem_nil, or_false] at h
          rcases h with rfl | rfl | rfl | rfl <;> decide
    · exact ⟨by decide, by decide⟩
    · exact ⟨by decide, by decide⟩
    · exact ⟨by decide, by decide⟩
    · exact ⟨by decide, by decide⟩
    · exact ⟨by decide, by decide⟩
    · exact ⟨by decide, by decide⟩
    · exact ⟨by decide, by decide⟩
    · exact ⟨by decide, by decide⟩
  have hparts : wsplitL (netLine (hex ++ ':' :: "1F90".data) "12345".data) =
      netTokens (hex ++ ':' :: "1F90".data) "12345".data :=
    wsplitL_intercal _ htoks
  have hsd : (String.mk (netLine (hex ++ ':' :: "1F90".data) "12345".data)).data =
      netLine (hex ++ ':' :: "1F90".data) "12345".data := rfl
  have hg1 : (netTokens (hex ++ ':' :: "1F90".data) "12345".data).getD 1 [] =
      hex ++ ':' :: "1F90".data := rfl
  have hg3 : (netTokens (hex ++ ':' :: "1F90".data) "12345".data).getD 3 [] =
      "0A".data := rfl
  have hg9 : (netTokens (hex ++ ':' :: "1F90".data) "12345".data).getD 9 [] =
      "12345".data := rfl
  have hlen : (netTokens (hex ++ ':' :: "1F90".data) "12345".data).length = 10 := rfl
  have hczero : ¬ ((netTokens (hex ++ ':' :: "1F90".data) "12345".data).length < 10) := by
    rw [hlen]; decide
  have hnoc : ':' ∉ hex := fun hc => (hch ':' hc).2 rfl
  have hsplitc : splitOnChar ':' (hex ++ ':' :: "1F90".data) =
      hex :: splitOnChar ':' "1F90".data := splitOnChar_append ':' hex _ hnoc
  have h1f90 : splitOnChar ':' "1F90".data = ["1F90".data] := rfl
  have hga1 : (splitOnChar ':' (hex ++ ':' :: "1F90".data)).getD 1 [] =
      "1F90".data := by rw [hsplitc, h1f90]; rfl
  have hga0 : (splitOnChar ':' (hex ++ ':' :: "1F90".data)).getD 0 [] = hex := by
    rw [hsplitc]; rfl
  have hsub : subOf ":".data (hex ++ ':' :: "1F90".data) = true :=
    subOf_single_mem _ ':' (by simp)
  have hst : ¬ ((netTokens (hex ++ ':' :: "1F90".data) "12345".data).getD 3 [] ≠
      "0A".data) := by rw [hg3]; simp
  have hup : pyUpperL "1F90".data = pyUpperL (toHex4 8080) := by decide
  constructor
  · simp only [findProcessByPortLinuxProc, netEnvA, portFileLoop, hsd, hparts]
    rw [if_neg hczero, if_neg hst, if_pos (by rw [hg1]; exact hsub)]
    rw [hg1, hga1]
    rw [if_pos hup, hg9]
    simp only [portFileLoop]
    rw [hga0, if_neg hlen8]
    simp
  · simp only [detectListeningPortsLinuxProc, detEnvB]
    rw [if_neg (by decide :
      ¬ (socketInodes [Except.ok "socket:[12345]"] = ([] : List String)))]
    simp only [detFileLoop, hsd, hparts]
    rw [if_neg hczero]
    rw [if_pos (⟨by rw [hg3], by rw [hg9]; decide⟩ :
      (netTokens (hex ++ ':' :: "1F90".data) "12345".data).getD 3 [] = "0A".data ∧
        String.mk ((netTokens (hex ++ ':' :: "1F90".data) "12345".data).getD 9 []) ∈
          socketInodes [Except.ok "socket:[12345]"])]
    rw [if_pos (by rw [hg1]; exact hsub)]
    rw [hg1, hsplitc, h1f90]
    have hport : pyIntHex "1F90".data = some 8080 := by decide
    simp only [hport]
    rw [if_neg hlen8]

/-- C6 witness: both rendering forms evaluated at the concrete 4-digit
address `DEAD`. -/
theorem c6_witness :
    findProcessByPortLinuxProc (netEnvA "DEAD".data pi0C6) 8080 =
      [{ pi0C6 with listening_addresses :=
          pi0C6.listening_addresses ++
            [String.mk "DEAD".data ++ ":" ++ Nat.repr 8080] }] ∧
    detectListeningPortsLinuxProc (detEnvB "DEAD".data) pi0C6 =
      { pi0C6 with listening_addresses :=
          pi0C6.listening_addresses ++
            [("[" ++ String.mk "DEAD".data ++ "]") ++ ":" ++ Nat.repr 8080] } :=
  c6_hex_literal_forms "DEAD".data pi0C6 (by decide) (by decide)

/-! ## Snapshot providers (`get_process_info_*`, wayr.py lines 104-297) -/

/-- Per-pid reads of `get_process_info_linux`, each an `Except` (a raised
OSError is `error`): the two reads of `/proc/<pid>/stat`, the cmdline, the
combined `os.stat` + `pwd.getpwuid` user lookup, `/proc/uptime`,
`sysconf(SC_CLK_TCK)`, the status lines, the cwd readlink and the environ
block; `now` is the current time in seconds (`datetime.now()`). -/
structure LinuxFS where
  statR : Except Unit String
  statR2 : Except Unit String
  cmdlineR : Except Unit String
  userR : Except Unit String
  uptimeR : Except Unit String
  clkTck : Except Unit Int
  statusR : Except Unit (List String)
  cwdR : Except Unit String
  environR : Except Unit String
  now : ℚ

/-- Start-time computation (lines 228-242): uptime minus start ticks over
the tick rate, subtracted from now; *any* failure (read error, parse
error, missing field 22, zero tick rate) degrades to `now`. -/
def linuxStartTime (fs : LinuxFS) : ℚ :=
  match fs.uptimeR with
  | .error _ => fs.now
  | .ok up =>
    match (wsplitL up.data).head? with
    | none => fs.now
    | some tok =>
      match pyFloat tok with
      | none => fs.now
      | some uptime =>
        match fs.statR2 with
        | .error _ => fs.now
        | .ok s2 =>
          match (wsplitL ((splitOnChar ')' s2.data).getLastD [])).get? 19 with
          | none => fs.now
          | some tk =>
            match pyInt tk with
            | none => fs.now
            | some ticks =>
              match fs.clkTck with
              | .error _ => fs.now
              | .ok tck =>
                if tck = 0 then fs.now
                else fs.now - (uptime - (ticks : ℚ) / (tck : ℚ))

/-- RSS extraction (lines 245-253): the first `VmRSS:` line's second
column; any failure (missing line, missing column, unparseable number)
leaves 0. -/
def rssFromStatus : List String → Int
  | [] => 0
  | l :: ls =>
    if chPref "VmRSS:".data l.data then
      match (wsplitL l.data).get? 1 with
      | none => 0
      | some t =>
        match pyInt t with
        | none => 0
        | some v => v
    else rssFromStatus ls

/-- Ordered-dict insertion: overwrite in place, else append (Python dict
assignment semantics). -/
def dictInsert (m : List (String × String)) (k v : String) :
    List (String × String) :=
  if m.any (fun kv => kv.1 = k) then
    m.map (fun kv => if kv.1 = k then (k, v) else kv)
  else m ++ [(k, v)]

/-- Environ parsing (lines 263-272): null-separated `KEY=VALUE` items,
split at the first `=`. -/
def parseEnviron (e : String) : List (String × String) :=
  (splitOnChar '\x00' e.data).foldl (fun m item =>
    match splitOnce '=' item with
    | (k, some v) => dictInsert m (String.mk k) (String.mk v)
    | (_, none) => m) []

/-- `get_process_info_linux(pid)` (lines 197-286): `None` exactly when the
stat read or the stat regex fails; each optional sub-lookup failure leaves
its field at the documented default.  The `pid` field is the *queried*
pid (the regex's pid group is unused), `restart_count` is always 0. -/
def getProcessInfoLinux (fs : LinuxFS) (pid : Int) : Option ProcessInfo :=
  match fs.statR with
  | .error _ => none
  | .ok stat =>
    match parseStatLinux stat with
    | none => none
    | some (_pidParsed, name, _state, ppid) =>
      let cmd :=
        match fs.cmdlineR with
        | .ok c =>
          let c' := pyStripS (String.mk (c.data.map fun ch =>
            if ch = '\x00' then ' ' else ch))
          if c' = "" then "[" ++ name ++ "]" else c'
        | .error _ => "[" ++ name ++ "]"
      let user := match fs.userR with | .ok u => u | .error _ => "unknown"
      let rss :=
        match fs.statusR with
        | .ok lines => rssFromStatus lines
        | .error _ => 0
      let cwd := match fs.cwdR with | .ok c => some c | .error _ => none
      let envv :=
        match fs.environR with
        | .ok ev => parseEnviron ev
        | .error _ => []
      some { pid := pid, name := name, ppid := (ppid : Int), user := user,
             cmd := cmd, start_time := linuxStartTime fs, cwd := cwd,
             rss_kb := rss, env_vars := envv }

/-- Outputs of the four external commands `get_process_info_macos`
invokes, each as `(returncode, stdout)`, plus the current time. -/
structure MacEnv where
  psInfo : Int × String
  psCmd : Int × String
  lsofCwd : Int × String
  psEnv : Int × String
  now : ℚ

/-- `parse_elapsed_time_macos` (lines 104-134): `[[dd-]hh:]mm:ss`
subtracted from now; any `int()` failure degrades to `now`; with three or
more dashes only the part before the first dash is parsed (faithful to
`parts[0]`). -/
def parseElapsedMacos (now : ℚ) (etime : List Char) : ℚ :=
  let parts := splitOnChar '-' etime
  let dt : Option (Int × List Char) :=
    if parts.length = 2 then
      match pyInt (parts.getD 0 []) with
      | some d => some (d, parts.getD 1 [])
      | none => none
    else some (0, parts.getD 0 [])
  match dt with
  | none => now
  | some (days, timePart) =>
    let comps := splitOnChar ':' timePart
    let hms : Option (Int × Int × Int) :=
      if comps.length = 3 then
        match pyInt (comps.getD 0 []), pyInt (comps.getD 1 []),
            pyInt (comps.getD 2 []) with
        | some h, some m, some sec => some (h, m, sec)
        | _, _, _ => none
      else if comps.length = 2 then
        match pyInt (comps.getD 0 []), pyInt (comps.getD 1 []) with
        | some m, some sec => some (0, m, sec)
        | _, _ => none
      else
        match pyInt (comps.getD 0 []) with
        | some sec => some (0, 0, sec)
        | none => none
    match hms with
    | none => now
    | some (h, m, sec) =>
      now - ((days * 86400 + h * 3600 + m * 60 + sec : Int) : ℚ)

/-- `ps -E` environment parsing (lines 172-180): lines containing `=`
split once, both sides stripped. -/
def macEnvParse (out : String) : List (String × String) :=
  (splitOnChar '\n' out.data).foldl (fun m lineCs =>
    if subOf "=".data lineCs then
      match splitOnce '=' lineCs with
      | (k, some v) =>
        dictInsert m (pyStripS (String.mk k)) (pyStripS (String.mk v))
      | (_, none) => m
    else m) []

/-- First `lsof -Fn` output line tagged `n` (lines 164-170). -/
def lsofCwdParse : List (List Char) → Option String
  | [] => none
  | l :: ls =>
    if chPref "n".data l then some (String.mk (l.drop 1)) else lsofCwdParse ls

/-- `get_process_info_macos(pid)` (lines 137-194): a failing or empty
`ps`, fewer than six columns, or an unparseable pid/ppid/rss column yields
`None` (the surrounding `except` catches the `int()` errors); the cmd
falls back to the name on a failing second query, cwd/env degrade to
empty. -/
def getProcessInfoMacos (env : MacEnv) (pid : Int) : Option ProcessInfo :=
  if env.psInfo.1 ≠ 0 ∨ pyStripS env.psInfo.2 = "" then none
  else
    let parts := wsplitMax 5 (pyStripL env.psInfo.2.data)
    if parts.length < 6 then none
    else
      match pyInt (parts.getD 0 []), pyInt (parts.getD 1 []),
          pyInt (parts.getD 5 []) with
      | some pidParsed, some ppid, some rss =>
        let user := String.mk (parts.getD 2 [])
        let name := String.mk (basenameL (parts.getD 3 []))
        let cmd := if env.psCmd.1 = 0 then pyStripS env.psCmd.2 else name
        let start := parseElapsedMacos env.now (parts.getD 4 [])
        let cwd :=
          if env.lsofCwd.1 = 0 then
            lsofCwdParse (splitOnChar '\n' env.lsofCwd.2.data)
          else none
        let envv := if env.psEnv.1 = 0 then macEnvParse env.psEnv.2 else []
        some { pid := pidParsed, name := name, ppid := ppid, user := user,
               cmd := cmd, start_time := start, cwd := cwd, rss_kb := rss,
               env_vars := envv }
      | _, _, _ => none

/-- OS detection outcome (`IS_MACOS` / `IS_LINUX`, fixed at startup). -/
inductive Platform
  | linux
  | macos
  | other
deriving DecidableEq, Repr

/-- The ambient system a snapshot query runs against. -/
structure SysEnv where
  plat : Platform
  lfs : LinuxFS
  menv : MacEnv

/-- `get_process_info(pid)` (lines 289-297): dispatch on the detected OS;
unknown platforms take the macOS path. -/
def getProcessInfo (e : SysEnv) (pid : Int) : Option ProcessInfo :=
  match e.plat with
  | .macos => getProcessInfoMacos e.menv pid
  | .linux => getProcessInfoLinux e.lfs pid
  | .other => getProcessInfoMacos e.menv pid

/-- The Linux provider returns `None` exactly when the stat record is
unreadable or fails the regex. -/
theorem getLinux_none_iff (fs : LinuxFS) (pid : Int) :
    getProcessInfoLinux fs pid = none ↔
      (fs.statR = .error () ∨ ∃ s, fs.statR = .ok s ∧ parseStatLinux s = none) := by
  cases hst : fs.statR with
  | error u =>
    cases u
    simp [getProcessInfoLinux, hst]
  | ok stat =>
    cases hp : parseStatLinux stat with
    | none =>
      simp only [getProcessInfoLinux, hst, hp]
      constructor
      · intro _; exact Or.inr ⟨stat, rfl, hp⟩
      · intro _; trivial
    | some t =>
      obtain ⟨a, nm, st, pp⟩ := t
      simp only [getProcessInfoLinux, hst, hp]
      constructor
      · intro hc; cases hc
      · rintro (hc | ⟨s, hs, hps⟩)
        · cases hc
        · rw [Except.ok.injEq] at hs
          rw [hs] at hp
          rw [hp] at hps
          cases hps

/-- Sub-lookup failures leave the documented Linux defaults. -/
theorem getLinux_defaults (fs : LinuxFS) (pid : Int) (pi : ProcessInfo)
    (hpi : getProcessInfoLinux fs pid = some pi) :
    (fs.cmdlineR = .error () → pi.cmd = "[" ++ pi.name ++ "]") ∧
      (fs.userR = .error () → pi.user = "unknown") ∧
      (fs.uptimeR = .error () → pi.start_time = fs.now) ∧
      (fs.statusR = .error () → pi.rss_kb = 0) ∧
      (fs.cwdR = .error () → pi.cwd = none) ∧
      (fs.environR = .error () → pi.env_vars = []) := by
  cases hst : fs.statR with
  | error u => simp [getProcessInfoLinux, hst] at hpi
  | ok stat =>
    cases hp : parseStatLinux stat with
    | none => simp [getProcessInfoLinux, hst, hp] at hpi
    | some t =>
      obtain ⟨a, nm, st, pp⟩ := t
      simp only [getProcessInfoLinux, hst, hp, Option.some.injEq] at hpi
      subst hpi
      refine ⟨?_, ?_, ?_, ?_, ?_, ?_⟩
      · intro h; simp [h]
      · intro h; simp [h]
      · intro h; simp [linuxStartTime, h]
      · intro h; simp [h]
      · intro h; simp [h]
      · intro h; simp [h]

/-- A failing `ps` invocation makes the macOS provider return `None`. -/
theorem getMacos_none (env : MacEnv) (pid : Int) (h : env.psInfo.1 ≠ 0) :
    getProcessInfoMacos env pid = none := by
  simp [getProcessInfoMacos, h]

/-- Sub-lookup failures leave the documented macOS defaults. -/
theorem getMacos_defaults (env : MacEnv) (pid : Int) (pi : ProcessInfo)
    (hpi : getProcessInfoMacos env pid = some pi) :
    (env.psCmd.1 ≠ 0 → pi.cmd = pi.name) ∧
      (env.lsofCwd.1 ≠ 0 → pi.cwd = none) ∧
      (env.psEnv.1 ≠ 0 → pi.env_vars = []) := by
  by_cases h1 : env.psInfo.1 ≠ 0 ∨ pyStripS env.psInfo.2 = ""
  · simp [getProcessInfoMacos, h1] at hpi
  · simp only [getProcessInfoMacos, if_neg h1] at hpi
    by_cases h2 : (wsplitMax 5 (pyStripL env.psInfo.2.data)).length < 6
    · simp [h2] at hpi
    · simp only [if_neg h2] at hpi
      split at hpi
      · rw [Option.some.injEq] at hpi
        subst hpi
        refine ⟨?_, ?_, ?_⟩
        · intro h
          have hne : ¬ env.psCmd.1 = 0 := h
          simp [hne]
        · intro h
          have hne : ¬ env.lsofCwd.1 = 0 := h
          simp [hne]
        · intro h
          have hne : ¬ env.psEnv.1 = 0 := h
          simp [hne]
      · exact Option.noConfusion hpi

/-- C9: the snapshot provider is total at its boundary: on either platform
the query yields `some` snapshot or `none` (`NotFound`); the Linux path is
`none` exactly when the stat record is missing or unparseable, and on both
paths a failure of an individual sub-lookup (cmdline, user, start time,
memory, cwd, environment) leaves that field at its default instead of
invalidating the snapshot. -/
theorem c9_snapshot_total (e : SysEnv) (pid : Int) :
    (getProcessInfo e pid = getProcessInfoLinux e.lfs pid ∨
        getProcessInfo e pid = getProcessInfoMacos e.menv pid) ∧
      ((getProcessInfoLinux e.lfs pid = none) ↔
        (e.lfs.statR = .error () ∨
          ∃ s, e.lfs.statR = .ok s ∧ parseStatLinux s = none)) ∧
      (∀ pi, getProcessInfoLinux e.lfs pid = some pi →
        (e.lfs.cmdlineR = .error () → pi.cmd = "[" ++ pi.name ++ "]") ∧
          (e.lfs.userR = .error () → pi.user = "unknown") ∧
          (e.lfs.uptimeR = .error () → pi.start_time = e.lfs.now) ∧
          (e.lfs.statusR = .error () → pi.rss_kb = 0) ∧
          (e.lfs.cwdR = .error () → pi.cwd = none) ∧
          (e.lfs.environR = .error () → pi.env_vars = [])) ∧
      (e.menv.psInfo.1 ≠ 0 → getProcessInfoMacos e.menv pid = none) ∧
      (∀ pi, getProcessInfoMacos e.menv pid = some pi →
        (e.menv.psCmd.1 ≠ 0 → pi.cmd = pi.name) ∧
          (e.menv.lsofCwd.1 ≠ 0 → pi.cwd = none) ∧
          (e.menv.psEnv.1 ≠ 0 → pi.env_vars = [])) := by
  refine ⟨?_, getLinux_none_iff e.lfs pid, fun pi h => getLinux_defaults e.lfs pid pi h,
    fun h => getMacos_none e.menv pid h, fun pi h => getMacos_defaults e.menv pid pi h⟩
  cases hp : e.plat with
  | linux => exact Or.inl (by simp [getProcessInfo, hp])
  | macos => exact Or.inr (by simp [getProcessInfo, hp])
  | other => exact Or.inr (by simp [getProcessInfo, hp])

/-- A Linux environment whose stat read succeeds while every optional
sub-lookup fails, paired with a failing macOS `ps`. -/
def sysEnvW : SysEnv :=
  { plat := .linux,
    lfs := { statR := .ok "7 (x) S 1 0 0", statR2 := .error (),
             cmdlineR := .error (), userR := .error (), uptimeR := .error (),
             clkTck := .error (), statusR := .error (), cwdR := .error (),
             environR := .error (), now := 0 },
    menv := { psInfo := (1, ""), psCmd := (1, ""), lsofCwd := (1, ""),
              psEnv := (1, ""), now := 0 } }

/-- C9 witness: the totality/default clauses instantiated on `sysEnvW`. -/
theorem c9_witness :
    (∃ pi, getProcessInfoLinux sysEnvW.lfs 7 = some pi ∧
        pi.cmd = "[" ++ pi.name ++ "]" ∧ pi.user = "unknown" ∧
        pi.start_time = sysEnvW.lfs.now ∧ pi.rss_kb = 0 ∧ pi.cwd = none ∧
        pi.env_vars = []) ∧
      getProcessInfoMacos sysEnvW.menv 7 = none := by
  have h := c9_snapshot_total sysEnvW 7
  obtain ⟨piW, hpi⟩ : ∃ pi, getProcessInfoLinux sysEnvW.lfs 7 = some pi := by
    cases hcase : getProcessInfoLinux sysEnvW.lfs 7 with
    | none =>
      exfalso
      rcases (h.2.1).mp hcase with hc | ⟨s, hs, hps⟩
      · have hc2 : Except.ok (ε := Unit) "7 (x) S 1 0 0" = Except.error () := hc
        exact Except.noConfusion hc2
      · have hs2 : Except.ok (ε := Unit) "7 (x) S 1 0 0" = Except.ok s := hs
        injection hs2 with hs3
        subst hs3
        exact absurd hps (by decide)
    | some pi => exact ⟨pi, rfl⟩
  have hd := h.2.2.1 piW hpi
  exact ⟨⟨piW, hpi, hd.1 rfl, hd.2.1 rfl, hd.2.2.1 rfl, hd.2.2.2.1 rfl,
    hd.2.2.2.2.1 rfl, hd.2.2.2.2.2 rfl⟩, h.2.2.2.1 (by decide)⟩

/-- C8 witness: idempotence and set-ness of the source instantiated on the
concrete docker/bash chain. -/
theorem c8_witness :
    detectSource clsEnvC1 ancC1 (detectSource clsEnvC1 ancC1 targetC1) =
        detectSource clsEnvC1 ancC1 targetC1 ∧
      (detectSource clsEnvC1 ancC1 targetC1).source ≠ none :=
  c8_classify_idempotent clsEnvC1 ancC1 targetC1
